import Mathlib

/-
Verification of the simple-site-monitor repository (src/src/monitor_app.py,
src/src/logs_db.py, src/src/config.py) against its design specification.

Shallow embedding conventions:
- An HTTP request outcome is a sum type: either a transport-level exception
  carrying a description (aiohttp raises, the `on_request_exception` trace hook
  fires), or a received response carrying an HTTP status code and a body (the
  `on_request_end` trace hook fires before `session.get` returns, regardless of
  the status code; `response.raise_for_status()` raises for status >= 400).
- The append-only log table is a `List LogEntry`; sqlite auto-increment ids are
  list positions and are not modelled. Timestamps are naturals.
- The sqlite queries of logs_db.get_monitoring_data (ORDER BY timestamp DESC
  LIMIT 1 over a filtered table) are modelled by a fold picking a row of
  maximal timestamp.
- Fallible operations (config parsing, log-store writes) land in Except.
-/

namespace SiteMonitor

/-- LogStatus enumeration from src/src/logs_db.py. -/
inductive LogStatus where
  | CONN_OK
  | CONN_NOK
  | CONTENT_OK
  | CONTENT_NOK
deriving DecidableEq, Repr

/-- One row of the monitoring_logs table (logs_db.py): timestamp, url,
nullable duration in milliseconds, status, details. The auto-increment id is
the position in the list and is not carried. -/
structure LogEntry where
  timestamp : Nat
  url : String
  duration : Option Nat
  status : LogStatus
  details : String
deriving DecidableEq, Repr

/-- MonitoringDetails dataclass from src/src/logs_db.py (the composite status
returned by get_monitoring_data for one url). -/
structure MonitoringDetails where
  timestamp : Nat
  duration : Option Nat
  status : LogStatus
  details : String
deriving DecidableEq, Repr

/-- Outcome of one HTTP GET as seen by the aiohttp machinery: a transport
exception with its description, or a response with an HTTP status code and a
body text. -/
inductive ReqOutcome where
  | exc (desc : String)
  | resp (status : Nat) (body : String)
deriving DecidableEq, Repr

/-- Python string containment helper: does pat occur at the head of s
(character lists)? -/
def leadsWith : List Char → List Char → Bool
  | _, [] => true
  | [], _ :: _ => false
  | c :: cs, p :: ps => c == p && leadsWith cs ps

/-- Python string containment helper over character lists. -/
def hasSubList : List Char → List Char → Bool
  | [], pat => pat.isEmpty
  | c :: cs, pat => leadsWith (c :: cs) pat || hasSubList cs pat

/-- Python operator pat in s on strings (used by monitor_app.py as
expected_text not in text). -/
def pyIn (pat s : String) : Bool :=
  hasSubList s.data pat.data

/-- Log entries written by the aiohttp trace hooks during session.get
(monitor_app.py on_request_end / on_request_exception): a transport exception
yields one CONN_NOK entry with the elapsed duration and the exception text; a
received response (any status code) yields one CONN_OK entry with the elapsed
duration and empty details. -/
def connEntries (url : String) (dur : Nat) (ts : Nat) : ReqOutcome → List LogEntry
  | .exc desc => [⟨ts, url, some dur, .CONN_NOK, desc⟩]
  | .resp _ _ => [⟨ts, url, some dur, .CONN_OK, ""⟩]

/-- Value returned by monitor_app.get_response_text: None when the request
raised or raise_for_status raised (status >= 400, an aiohttp.ClientError
caught by the except clause), otherwise the body text. -/
def get_response_text : ReqOutcome → Option String
  | .exc _ => none
  | .resp status body => if status < 400 then some body else none

/-- Content-validation loop body of monitor_app.get_and_validate_content: walk
the requirements in order; at the first substring missing from the body write
one CONTENT_NOK entry and stop; when the list is exhausted write one
CONTENT_OK entry. Only called with a nonempty initial requirements list. -/
def validateContent (url : String) (ts : Nat) (text : String) : List String → List LogEntry
  | [] => [⟨ts, url, none, .CONTENT_OK, ""⟩]
  | r :: rs =>
    if pyIn r text then validateContent url ts text rs
    else [⟨ts, url, none, .CONTENT_NOK, r ++ " not found response content"⟩]

/-- Content entries written by get_and_validate_content after a body was
obtained: nothing when content_requirements is empty (the Python
if content_requirements: guard), else the validation loop. -/
def contentLog (url : String) (ts : Nat) (text : String) (reqs : List String) : List LogEntry :=
  if reqs.isEmpty then [] else validateContent url ts text reqs

/-- Full list of log entries appended by one probe of one target
(monitor_app.get_and_validate_content including the trace-hook writes that
happen inside session.get): the connectivity entry always, then, only when a
body was obtained, the content entries. tsConn and tsContent are the
timestamps datetime.now() assigns to the connectivity and content writes. -/
def get_and_validate_content (url : String) (dur : Nat) (tsConn tsContent : Nat)
    (outcome : ReqOutcome) (reqs : List String) : List LogEntry :=
  connEntries url dur tsConn outcome ++
    match get_response_text outcome with
    | none => []
    | some text => contentLog url tsContent text reqs

example : get_and_validate_content "u" 7 1 2 (.exc "boom") ["a"] =
    [⟨1, "u", some 7, .CONN_NOK, "boom"⟩] := by decide

example : get_and_validate_content "u" 7 1 2 (.resp 404 "hello") ["hello"] =
    [⟨1, "u", some 7, .CONN_OK, ""⟩] := by decide

example : get_and_validate_content "u" 7 1 2 (.resp 200 "hello world") ["hello"] =
    [⟨1, "u", some 7, .CONN_OK, ""⟩, ⟨2, "u", none, .CONTENT_OK, ""⟩] := by decide

example : get_and_validate_content "u" 7 1 2 (.resp 200 "goodbye") ["hello"] =
    [⟨1, "u", some 7, .CONN_OK, ""⟩,
     ⟨2, "u", none, .CONTENT_NOK, "hello not found response content"⟩] := by decide

example : get_and_validate_content "u" 7 1 2 (.resp 200 "xyz") [] =
    [⟨1, "u", some 7, .CONN_OK, ""⟩] := by decide

example : pyIn "" "anything" = true := by decide

/-- Fold step picking the row of maximal timestamp (the first one on ties),
modelling ORDER BY timestamp DESC LIMIT 1 in logs_db.get_monitoring_data. -/
def laterOf (a : Option LogEntry) (e : LogEntry) : Option LogEntry :=
  match a with
  | none => some e
  | some b => if b.timestamp < e.timestamp then some e else some b

/-- Row of maximal timestamp among the given rows, none when there are none. -/
def latestRow (rows : List LogEntry) : Option LogEntry :=
  rows.foldl laterOf none

/-- Rows matching WHERE url=? AND duration IS NOT NULL
(the connectivity query of get_monitoring_data). -/
def connRows (s : List LogEntry) (u : String) : List LogEntry :=
  s.filter (fun e => e.url == u && e.duration.isSome)

/-- Rows matching WHERE url=? AND duration IS NULL AND timestamp > ?
(the content query of get_monitoring_data). -/
def contentRowsAfter (s : List LogEntry) (u : String) (t : Nat) : List LogEntry :=
  s.filter (fun e => e.url == u && e.duration.isNone && decide (t < e.timestamp))

/-- Per-url body of logs_db.get_monitoring_data: take the latest row with
non-null duration; if none, the url maps to None; otherwise build
MonitoringDetails from it, and if a null-duration row strictly newer than it
exists, overwrite status and details from the latest such row. -/
def compositeStatus (s : List LogEntry) (u : String) : Option MonitoringDetails :=
  match latestRow (connRows s u) with
  | none => none
  | some c =>
    match latestRow (contentRowsAfter s u c.timestamp) with
    | none => some ⟨c.timestamp, c.duration, c.status, c.details⟩
    | some k => some ⟨c.timestamp, c.duration, k.status, k.details⟩

/-- logs_db.read_monitored_urls: SELECT DISTINCT(url) FROM monitoring_logs. -/
def read_monitored_urls (s : List LogEntry) : List String :=
  (s.map LogEntry.url).dedup

/-- Log-table states reachable by the system writes: empty at start; each
probe appends its entry list (monitor_app.monitor gathers per-target probes,
each appending via write_log_db_entry); a probe whose content write raised a
storage error leaves only its connectivity entry behind (the connectivity
entry is written first, inside session.get); a probe whose connectivity write
raised appends nothing. -/
inductive Reachable : List LogEntry → Prop
  | nil : Reachable []
  | step (s : List LogEntry) (url : String) (dur tsConn tsContent : Nat)
      (outcome : ReqOutcome) (reqs : List String) :
      Reachable s →
      Reachable (s ++ get_and_validate_content url dur tsConn tsContent outcome reqs)
  | stepContentFail (s : List LogEntry) (url : String) (dur ts : Nat)
      (outcome : ReqOutcome) :
      Reachable s → Reachable (s ++ connEntries url dur ts outcome)

/-- Target dataclass from src/src/config.py. -/
structure Target where
  url : String
  content_requirements : List String
deriving DecidableEq, Repr

/-- Config dataclass from src/src/config.py. -/
structure Config where
  interval : Int
  targets : List Target
deriving DecidableEq, Repr

/-- One "targets" item of the raw JSON dict: item["url"] and the optional
item["req"] list. -/
structure RawTarget where
  url : String
  req : Option (List String)
deriving DecidableEq, Repr

/-- The raw JSON config dict as consumed by parse_config: config.get("interval")
and config.get("targets"); a missing or non-list "targets" value is none. -/
structure RawConfig where
  interval : Option Int
  targets : Option (List RawTarget)
deriving DecidableEq, Repr

/-- Errors raised by config.parse_config: TypeError when "targets" is not a
list, ValueError when no usable interval was passed. -/
inductive ConfigError where
  | formatError
  | missingInterval
deriving DecidableEq, Repr

/-- Python truthiness of an Optional[int]: None and 0 are falsy. -/
def truthyInt : Option Int → Bool
  | none => false
  | some n => !(n == 0)

/-- config.parse_config: raise TypeError when targets is not a list; raise
ValueError when neither cmd_interval nor config interval is truthy; a truthy
cmd_interval replaces the config interval; each target item maps to
Target(item["url"], item["req"] if item.get("req") else []). -/
def parse_config (cmd_interval : Option Int) (config : RawConfig) : Except ConfigError Config :=
  match config.targets with
  | none => .error .formatError
  | some targets =>
    if !truthyInt cmd_interval && !truthyInt config.interval then
      .error .missingInterval
    else
      let interval : Int :=
        if truthyInt cmd_interval then cmd_interval.getD 0 else config.interval.getD 0
      .ok ⟨interval, targets.map (fun t =>
        ⟨t.url, match t.req with
                | none => []
                | some r => if r.isEmpty then [] else r⟩)⟩

example : parse_config (some 3) ⟨some 9, some [⟨"u", none⟩]⟩ = .ok ⟨3, [⟨"u", []⟩]⟩ := rfl

example : parse_config (some 0) ⟨some 9, some []⟩ = .ok ⟨9, []⟩ := rfl

example : parse_config none ⟨none, some []⟩ = .error .missingInterval := rfl

/-- Whether the log-store writes issued during one probe fail: aiosqlite can
raise on any write_log_db_entry call (spec taxonomy StorageError). -/
structure WriteFail where
  connWriteFails : Bool
  contentWriteFails : Bool
deriving DecidableEq, Repr

/-- All inputs of one probe of one target within a cycle, together with which
log-store writes fail. -/
structure ProbeSpec where
  url : String
  dur : Nat
  tsConn : Nat
  tsContent : Nat
  outcome : ReqOutcome
  reqs : List String
  wf : WriteFail
deriving DecidableEq, Repr

/-- Exception flow of one probe (monitor_app.get_and_validate_content with the
trace hooks inlined): get_response_text catches only aiohttp.ClientError and
asyncio.TimeoutError, so an aiosqlite error raised by write_log_db_entry in a
trace hook or in the validation loop is not caught anywhere and escapes the
probe as .error. .ok carries the entries the probe appended. -/
def probeE (p : ProbeSpec) : Except String (List LogEntry) :=
  if p.wf.connWriteFails then .error "StorageError" else
  let conn := connEntries p.url p.dur p.tsConn p.outcome
  match get_response_text p.outcome with
  | none => .ok conn
  | some text =>
    let content := contentLog p.url p.tsContent text p.reqs
    if content.isEmpty then .ok conn
    else if p.wf.contentWriteFails then .error "StorageError" else .ok (conn ++ content)

/-- One cycle of monitor_app.monitor: asyncio.gather over the per-target
probes; with the default return_exceptions=False the first raised exception
propagates to the awaiting loop body. -/
def cycleE (ps : List ProbeSpec) : Except String (List LogEntry) :=
  ps.foldr
    (fun p acc =>
      match probeE p, acc with
      | .error e, _ => .error e
      | .ok _, .error e => .error e
      | .ok l, .ok ls => .ok (l ++ ls))
    (.ok [])

/-- Sequential cycles of the while True loop in monitor_app.monitor: an
exception escaping one cycle's gather ends the loop, so no later cycle runs. -/
def runCycles (cycles : List (List ProbeSpec)) : Except String (List LogEntry) :=
  match cycles with
  | [] => .ok []
  | c :: rest =>
    match cycleE c with
    | .error e => .error e
    | .ok l =>
      match runCycles rest with
      | .error e => .error e
      | .ok ls => .ok (l ++ ls)

lemma hasSubList_empty_pat (l : List Char) : hasSubList l [] = true := by
  cases l <;> rfl

lemma pyIn_empty_pat (s : String) : pyIn "" s = true :=
  hasSubList_empty_pat s.data

lemma validateContent_find (url : String) (ts : Nat) (text : String) (reqs : List String) :
    validateContent url ts text reqs =
      match reqs.find? (fun r => !(pyIn r text)) with
      | none => [⟨ts, url, none, .CONTENT_OK, ""⟩]
      | some r => [⟨ts, url, none, .CONTENT_NOK, r ++ " not found response content"⟩] := by
  induction reqs with
  | nil => rfl
  | cons r rs ih =>
    cases hb : pyIn r text with
    | false => simp [validateContent, hb, List.find?_cons]
    | true => simp [validateContent, hb, List.find?_cons, ih]

/-- Claim C1 (amended): a probe whose HTTP request raises a transport-level
exception (network error, timeout) appends exactly one LogEntry, with status
CONN_NOK, the elapsed duration and the error description in details, performs
no content validation and appends no CONN_OK entry; a probe that receives a
response with a non-2xx/3xx status (400 or above) appends exactly one CONN_OK
entry — written by the on_request_end trace hook before raise_for_status
raises — and performs no content validation and appends no CONN_NOK entry. -/
theorem C1_failed_request_logging (url : String) (dur tsConn tsContent : Nat)
    (desc : String) (st : Nat) (body : String) (reqs : List String)
    (hbad : 400 ≤ st) :
    get_and_validate_content url dur tsConn tsContent (.exc desc) reqs =
      [⟨tsConn, url, some dur, .CONN_NOK, desc⟩] ∧
    get_and_validate_content url dur tsConn tsContent (.resp st body) reqs =
      [⟨tsConn, url, some dur, .CONN_OK, ""⟩] := by
  constructor
  · simp [get_and_validate_content, connEntries, get_response_text]
  · have hlt : ¬ st < 400 := not_lt.mpr hbad
    simp [get_and_validate_content, connEntries, get_response_text, hlt]

/-- Claim C1 witness at concrete inputs. -/
theorem C1_failed_request_logging_witness :
    400 ≤ 404 ∧
    (get_and_validate_content "u" 10 1 2 (.exc "boom") ["x"] =
       [⟨1, "u", some 10, .CONN_NOK, "boom"⟩] ∧
     get_and_validate_content "u" 10 1 2 (.resp 404 "b") ["x"] =
       [⟨1, "u", some 10, .CONN_OK, ""⟩]) :=
  ⟨by decide, C1_failed_request_logging "u" 10 1 2 "boom" 404 "b" ["x"] (by decide)⟩

/-- Claim C1 counterexample: a probe answered with HTTP status 404 — a failed
request per the claim — appends one CONN_OK entry and no CONN_NOK entry,
because the on_request_end trace hook fires on every received response and the
ClientResponseError of raise_for_status is caught in get_response_text. -/
theorem C1_cex :
    get_and_validate_content "u" 10 1 2 (.resp 404 "body") ["x"] =
      [⟨1, "u", some 10, .CONN_OK, ""⟩] ∧
    (get_and_validate_content "u" 10 1 2 (.resp 404 "body") ["x"]).all
      (fun e => !(e.status == .CONN_NOK)) = true := by
  decide

/-- Claim C3: for a target with nonempty content_requirements whose
connectivity probe succeeds, exactly two entries are appended: CONN_OK then
CONTENT_OK when every required substring occurs in the body, or CONN_OK then a
single CONTENT_NOK for the first missing substring, the remaining substrings
being never examined. -/
theorem C3_content_validation (url : String) (dur tsConn tsContent st : Nat)
    (body : String) (reqs : List String) (hne : reqs ≠ []) (hok : st < 400) :
    (reqs.all (fun r => pyIn r body) = true →
      get_and_validate_content url dur tsConn tsContent (.resp st body) reqs =
        [⟨tsConn, url, some dur, .CONN_OK, ""⟩,
         ⟨tsContent, url, none, .CONTENT_OK, ""⟩]) ∧
    (∀ r, reqs.find? (fun x => !(pyIn x body)) = some r →
      get_and_validate_content url dur tsConn tsContent (.resp st body) reqs =
        [⟨tsConn, url, some dur, .CONN_OK, ""⟩,
         ⟨tsContent, url, none, .CONTENT_NOK, r ++ " not found response content"⟩]) := by
  obtain ⟨r0, rs0, rfl⟩ := List.exists_cons_of_ne_nil hne
  constructor
  · intro hall
    have hfind : (r0 :: rs0).find? (fun x => !(pyIn x body)) = none := by
      rw [List.find?_eq_none]
      intro x hx
      have hx2 := (List.all_eq_true.mp hall) x hx
      simp [hx2]
    simp [get_and_validate_content, connEntries, get_response_text, hok, contentLog,
          validateContent_find, hfind]
  · intro r hr
    simp [get_and_validate_content, connEntries, get_response_text, hok, contentLog,
          validateContent_find, hr]

/-- Claim C3 witness at concrete inputs: one passing body and one body missing
the first requirement. -/
theorem C3_content_validation_witness :
    (["hello"] ≠ ([] : List String) ∧ 200 < 400) ∧
    get_and_validate_content "u" 5 1 2 (.resp 200 "goodbye") ["hello"] =
      [⟨1, "u", some 5, .CONN_OK, ""⟩,
       ⟨2, "u", none, .CONTENT_NOK, "hello not found response content"⟩] :=
  ⟨⟨by decide, by decide⟩,
   (C3_content_validation "u" 5 1 2 200 "goodbye" ["hello"] (by decide) (by decide)).2
     "hello" (by decide)⟩

/-- Claim C4 (amended): the CONTENT_NOK entry written for the first missing
required substring s has details exactly the string
s ++ " not found response content" (no word "in": the f-string in
get_and_validate_content reads "{expected_text} not found response content"). -/
theorem C4_details_format (url : String) (dur tsConn tsContent st : Nat) (body : String)
    (reqs : List String) (r : String) (hok : st < 400)
    (hfind : reqs.find? (fun x => !(pyIn x body)) = some r) :
    get_and_validate_content url dur tsConn tsContent (.resp st body) reqs =
      [⟨tsConn, url, some dur, .CONN_OK, ""⟩,
       ⟨tsContent, url, none, .CONTENT_NOK, r ++ " not found response content"⟩] := by
  have hne : reqs ≠ [] := by
    intro h
    rw [h] at hfind
    simp at hfind
  obtain ⟨r0, rs0, rfl⟩ := List.exists_cons_of_ne_nil hne
  simp [get_and_validate_content, connEntries, get_response_text, hok, contentLog,
        validateContent_find, hfind]

/-- Claim C4 witness at concrete inputs. -/
theorem C4_details_format_witness :
    (200 < 400 ∧ ["zzz"].find? (fun x => !(pyIn x "abc")) = some "zzz") ∧
    get_and_validate_content "v" 8 3 4 (.resp 200 "abc") ["zzz"] =
      [⟨3, "v", some 8, .CONN_OK, ""⟩,
       ⟨4, "v", none, .CONTENT_NOK, "zzz not found response content"⟩] :=
  ⟨⟨by decide, by decide⟩,
   C4_details_format "v" 8 3 4 200 "abc" ["zzz"] "zzz" (by decide) (by decide)⟩

/-- Claim C4 counterexample: with body "goodbye" and requirement "hello" the
written details string is "hello not found response content", which is not the
string "hello not found in response content" stated by the claim. -/
theorem C4_cex :
    (get_and_validate_content "u" 5 1 2 (.resp 200 "goodbye") ["hello"]).map LogEntry.details =
      ["", "hello not found response content"] ∧
    "hello not found response content" ≠ "hello not found in response content" := by
  decide

/-- Claim C6: for a target with empty content_requirements, a successful probe
(status below 400) appends exactly one LogEntry, with status CONN_OK and
non-null duration, and no content entry (null duration) is written. -/
theorem C6_empty_requirements (url : String) (dur tsConn tsContent st : Nat) (body : String)
    (hok : st < 400) :
    get_and_validate_content url dur tsConn tsContent (.resp st body) [] =
      [⟨tsConn, url, some dur, .CONN_OK, ""⟩] := by
  simp [get_and_validate_content, connEntries, get_response_text, hok, contentLog]

/-- Claim C6 witness at concrete inputs. -/
theorem C6_empty_requirements_witness :
    200 < 400 ∧
    get_and_validate_content "u" 42 1 2 (.resp 200 "anything") [] =
      [⟨1, "u", some 42, .CONN_OK, ""⟩] :=
  ⟨by decide, C6_empty_requirements "u" 42 1 2 200 "anything" (by decide)⟩

/-- Claim C10: the empty-string requirement is satisfied on every body (Python
substring containment with an empty pattern is always true), and a target with
content_requirements equal to the one-element list containing the empty string
produces CONN_OK then CONTENT_OK after every successful connectivity probe. -/
theorem C10_empty_string_requirement (s url : String) (dur tsConn tsContent st : Nat)
    (body : String) (hok : st < 400) :
    pyIn "" s = true ∧
    get_and_validate_content url dur tsConn tsContent (.resp st body) [""] =
      [⟨tsConn, url, some dur, .CONN_OK, ""⟩,
       ⟨tsContent, url, none, .CONTENT_OK, ""⟩] := by
  refine ⟨pyIn_empty_pat s, ?_⟩
  simp [get_and_validate_content, connEntries, get_response_text, hok, contentLog,
        validateContent, pyIn_empty_pat]

/-- Claim C10 witness at concrete inputs. -/
theorem C10_empty_string_requirement_witness :
    204 < 400 ∧
    (pyIn "" "whatever" = true ∧
     get_and_validate_content "w" 3 9 10 (.resp 204 "") [""] =
       [⟨9, "w", some 3, .CONN_OK, ""⟩, ⟨10, "w", none, .CONTENT_OK, ""⟩]) :=
  ⟨by decide, C10_empty_string_requirement "whatever" "w" 3 9 10 204 "" (by decide)⟩

lemma foldl_laterOf_some (rows : List LogEntry) (a : LogEntry) :
    ∃ c, rows.foldl laterOf (some a) = some c ∧ (c = a ∨ c ∈ rows) ∧
      a.timestamp ≤ c.timestamp ∧ ∀ e ∈ rows, e.timestamp ≤ c.timestamp := by
  induction rows generalizing a with
  | nil => exact ⟨a, rfl, Or.inl rfl, le_refl _, by simp⟩
  | cons b l ih =>
    by_cases h : a.timestamp < b.timestamp
    · obtain ⟨c, hc, hmem, hle, hmax⟩ := ih b
      refine ⟨c, ?_, ?_, ?_, ?_⟩
      · rw [List.foldl_cons]
        simpa [laterOf, h] using hc
      · rcases hmem with rfl | hm
        · exact Or.inr (List.mem_cons_self _ _)
        · exact Or.inr (List.mem_cons_of_mem _ hm)
      · exact le_of_lt (lt_of_lt_of_le h hle)
      · intro e he
        rcases List.mem_cons.mp he with rfl | hm
        · exact hle
        · exact hmax e hm
    · obtain ⟨c, hc, hmem, hle, hmax⟩ := ih a
      refine ⟨c, ?_, ?_, hle, ?_⟩
      · rw [List.foldl_cons]
        simpa [laterOf, h] using hc
      · rcases hmem with rfl | hm
        · exact Or.inl rfl
        · exact Or.inr (List.mem_cons_of_mem _ hm)
      · intro e he
        rcases List.mem_cons.mp he with rfl | hm
        · exact le_trans (not_lt.mp h) hle
        · exact hmax e hm

lemma latestRow_some (rows : List LogEntry) (c : LogEntry) (h : latestRow rows = some c) :
    c ∈ rows ∧ ∀ e ∈ rows, e.timestamp ≤ c.timestamp := by
  cases rows with
  | nil => simp [latestRow] at h
  | cons b l =>
    obtain ⟨c2, hc2, hmem, hle, hmax⟩ := foldl_laterOf_some l b
    have hrow : latestRow (b :: l) = some c2 := by
      simpa [latestRow, List.foldl_cons, laterOf] using hc2
    rw [hrow] at h
    have hcc : c2 = c := Option.some.inj h
    subst hcc
    constructor
    · rcases hmem with rfl | hm
      · exact List.mem_cons_self _ _
      · exact List.mem_cons_of_mem _ hm
    · intro e he
      rcases List.mem_cons.mp he with rfl | hm
      · exact hle
      · exact hmax e hm

lemma latestRow_nil_iff (rows : List LogEntry) : latestRow rows = none ↔ rows = [] := by
  cases rows with
  | nil => simp [latestRow]
  | cons b l =>
    constructor
    · intro h
      obtain ⟨c, hc, _, _, _⟩ := foldl_laterOf_some l b
      have hrow : latestRow (b :: l) = some c := by
        simpa [latestRow, List.foldl_cons, laterOf] using hc
      rw [hrow] at h
      cases h
    · intro h
      exact absurd h (List.cons_ne_nil b l)

lemma mem_connRows (s : List LogEntry) (u : String) (e : LogEntry) :
    e ∈ connRows s u ↔ e ∈ s ∧ e.url = u ∧ e.duration.isSome = true := by
  simp [connRows, List.mem_filter, and_assoc]

lemma mem_contentRowsAfter (s : List LogEntry) (u : String) (t : Nat) (e : LogEntry) :
    e ∈ contentRowsAfter s u t ↔
      e ∈ s ∧ e.url = u ∧ e.duration = none ∧ t < e.timestamp := by
  simp [contentRowsAfter, List.mem_filter, and_assoc, Option.isNone_iff_eq_none]

/-- Claim C2: for every URL having at least one connectivity entry (non-null
duration) and at least one content entry (null duration) with timestamp
strictly greater than the latest connectivity timestamp, compositeStatus
returns the latest such content entry status and details combined with the
latest connectivity entry timestamp and duration; with no such newer content
entry it returns the latest connectivity entry verbatim. -/
theorem C2_composite_override (s : List LogEntry) (u : String)
    (hconn : ∃ e ∈ s, e.url = u ∧ e.duration.isSome = true) :
    ∃ c, c ∈ s ∧ c.url = u ∧ c.duration.isSome = true ∧
      (∀ e ∈ s, e.url = u → e.duration.isSome = true → e.timestamp ≤ c.timestamp) ∧
      ((∃ k ∈ s, k.url = u ∧ k.duration = none ∧ c.timestamp < k.timestamp) →
        ∃ k, k ∈ s ∧ k.url = u ∧ k.duration = none ∧ c.timestamp < k.timestamp ∧
          (∀ e ∈ s, e.url = u → e.duration = none → c.timestamp < e.timestamp →
            e.timestamp ≤ k.timestamp) ∧
          compositeStatus s u = some ⟨c.timestamp, c.duration, k.status, k.details⟩) ∧
      ((¬ ∃ k ∈ s, k.url = u ∧ k.duration = none ∧ c.timestamp < k.timestamp) →
        compositeStatus s u = some ⟨c.timestamp, c.duration, c.status, c.details⟩) := by
  obtain ⟨e0, he0s, he0u, he0d⟩ := hconn
  have he0 : e0 ∈ connRows s u := (mem_connRows s u e0).mpr ⟨he0s, he0u, he0d⟩
  cases hc : latestRow (connRows s u) with
  | none =>
    rw [latestRow_nil_iff] at hc
    rw [hc] at he0
    exact absurd he0 (List.not_mem_nil e0)
  | some c =>
    obtain ⟨hcmem, hcmax⟩ := latestRow_some _ c hc
    obtain ⟨hcs, hcu, hcd⟩ := (mem_connRows s u c).mp hcmem
    refine ⟨c, hcs, hcu, hcd, ?_, ?_, ?_⟩
    · intro e hes heu hed
      exact hcmax e ((mem_connRows s u e).mpr ⟨hes, heu, hed⟩)
    · intro hk
      obtain ⟨k0, hk0s, hk0u, hk0d, hk0t⟩ := hk
      have hk0 : k0 ∈ contentRowsAfter s u c.timestamp :=
        (mem_contentRowsAfter s u _ k0).mpr ⟨hk0s, hk0u, hk0d, hk0t⟩
      cases hkk : latestRow (contentRowsAfter s u c.timestamp) with
      | none =>
        rw [latestRow_nil_iff] at hkk
        rw [hkk] at hk0
        exact absurd hk0 (List.not_mem_nil k0)
      | some k =>
        obtain ⟨hkmem, hkmax⟩ := latestRow_some _ k hkk
        obtain ⟨hks, hku, hkd, hkt⟩ := (mem_contentRowsAfter s u _ k).mp hkmem
        refine ⟨k, hks, hku, hkd, hkt, ?_, ?_⟩
        · intro e hes heu hed het
          exact hkmax e ((mem_contentRowsAfter s u _ e).mpr ⟨hes, heu, hed, het⟩)
        · simp [compositeStatus, hc, hkk]
    · intro hk
      have hempty : contentRowsAfter s u c.timestamp = [] := by
        cases hrows : contentRowsAfter s u c.timestamp with
        | nil => rfl
        | cons x xs =>
          exfalso
          have hx : x ∈ contentRowsAfter s u c.timestamp := by
            rw [hrows]
            exact List.mem_cons_self x xs
          obtain ⟨hxs, hxu, hxd, hxt⟩ := (mem_contentRowsAfter s u _ x).mp hx
          exact hk ⟨x, hxs, hxu, hxd, hxt⟩
      have hknone : latestRow (contentRowsAfter s u c.timestamp) = none := by
        rw [hempty]
        rfl
      simp [compositeStatus, hc, hknone]

/-- Claim C2 witness: a store with a CONN_OK entry at time 1 and a newer
CONTENT_NOK entry at time 2 yields the content status and details with the
connectivity timestamp and duration. -/
theorem C2_composite_override_witness :
    compositeStatus
        [⟨1, "A", some 50, .CONN_OK, ""⟩, ⟨2, "A", none, .CONTENT_NOK, "d"⟩] "A" =
      some ⟨1, some 50, .CONTENT_NOK, "d"⟩ := by
  obtain ⟨c, hcs, hcu, hcd, hmax, hover, hverb⟩ :=
    C2_composite_override
      [⟨1, "A", some 50, .CONN_OK, ""⟩, ⟨2, "A", none, .CONTENT_NOK, "d"⟩] "A"
      ⟨⟨1, "A", some 50, .CONN_OK, ""⟩, by decide, by decide, by decide⟩
  have hc : c = ⟨1, "A", some 50, .CONN_OK, ""⟩ := by
    rcases List.mem_cons.mp hcs with h1 | h2
    · exact h1
    · have h3 : c = ⟨2, "A", none, .CONTENT_NOK, "d"⟩ := List.mem_singleton.mp h2
      rw [h3] at hcd
      simp at hcd
  subst hc
  obtain ⟨k, hks, hku, hkd, hkt, hkmax, hcomp⟩ :=
    hover ⟨⟨2, "A", none, .CONTENT_NOK, "d"⟩, by decide, by decide, by decide, by decide⟩
  have hk : k = ⟨2, "A", none, .CONTENT_NOK, "d"⟩ := by
    rcases List.mem_cons.mp hks with h1 | h2
    · rw [h1] at hkd
      simp at hkd
    · exact List.mem_singleton.mp h2
  subst hk
  exact hcomp

lemma connEntries_entry (url : String) (dur ts : Nat) (o : ReqOutcome) :
    ∀ e ∈ connEntries url dur ts o, e.url = url ∧ e.duration = some dur ∧
      (e.status = .CONN_OK ∨ e.status = .CONN_NOK) := by
  intro e he
  cases o with
  | exc d =>
    simp only [connEntries, List.mem_singleton] at he
    subst he
    exact ⟨rfl, rfl, Or.inr rfl⟩
  | resp st b =>
    simp only [connEntries, List.mem_singleton] at he
    subst he
    exact ⟨rfl, rfl, Or.inl rfl⟩

lemma connEntries_shape (url : String) (dur ts : Nat) (o : ReqOutcome) :
    ∃ st d, connEntries url dur ts o = [⟨ts, url, some dur, st, d⟩] := by
  cases o with
  | exc desc => exact ⟨.CONN_NOK, desc, rfl⟩
  | resp n b => exact ⟨.CONN_OK, "", rfl⟩

lemma validateContent_entry (url : String) (ts : Nat) (text : String) (reqs : List String) :
    ∀ e ∈ validateContent url ts text reqs, e.url = url ∧ e.duration = none ∧
      (e.status = .CONTENT_OK ∨ e.status = .CONTENT_NOK) := by
  induction reqs with
  | nil =>
    intro e he
    simp only [validateContent, List.mem_singleton] at he
    subst he
    exact ⟨rfl, rfl, Or.inl rfl⟩
  | cons r rs ih =>
    intro e he
    cases hb : pyIn r text with
    | true =>
      simp only [validateContent, hb, if_true] at he
      exact ih e he
    | false =>
      simp only [validateContent, hb, Bool.false_eq_true, if_false,
        List.mem_singleton] at he
      subst he
      exact ⟨rfl, rfl, Or.inr rfl⟩

lemma contentLog_entry (url : String) (ts : Nat) (text : String) (reqs : List String) :
    ∀ e ∈ contentLog url ts text reqs, e.url = url ∧ e.duration = none ∧
      (e.status = .CONTENT_OK ∨ e.status = .CONTENT_NOK) := by
  intro e he
  by_cases h : reqs.isEmpty
  · simp [contentLog, h] at he
  · simp only [contentLog, h, Bool.false_eq_true, if_false] at he
    exact validateContent_entry url ts text reqs e he

lemma probe_entries_url (url : String) (dur t1 t2 : Nat) (o : ReqOutcome)
    (reqs : List String) :
    ∀ e ∈ get_and_validate_content url dur t1 t2 o reqs, e.url = url := by
  intro e he
  simp only [get_and_validate_content] at he
  cases ho : get_response_text o with
  | none =>
    rw [ho] at he
    rw [List.append_nil] at he
    exact (connEntries_entry url dur t1 o e he).1
  | some text =>
    rw [ho] at he
    rcases List.mem_append.mp he with h | h
    · exact (connEntries_entry url dur t1 o e h).1
    · exact (contentLog_entry url t2 text reqs e h).1

lemma reachable_conn_for_url (s : List LogEntry) (hs : Reachable s) :
    ∀ e ∈ s, ∃ e2, e2 ∈ s ∧ e2.url = e.url ∧ e2.duration.isSome = true := by
  induction hs with
  | nil =>
    intro e he
    exact absurd he (List.not_mem_nil e)
  | step s0 url dur t1 t2 o reqs hr ih =>
    intro e he
    rcases List.mem_append.mp he with h | h
    · obtain ⟨e2, h2s, h2u, h2d⟩ := ih e h
      exact ⟨e2, List.mem_append_left _ h2s, h2u, h2d⟩
    · have hu : e.url = url := probe_entries_url url dur t1 t2 o reqs e h
      obtain ⟨st, d, hconn⟩ := connEntries_shape url dur t1 o
      refine ⟨⟨t1, url, some dur, st, d⟩, ?_, ?_, rfl⟩
      · refine List.mem_append_right _ ?_
        have hmem : (⟨t1, url, some dur, st, d⟩ : LogEntry) ∈ connEntries url dur t1 o := by
          rw [hconn]
          exact List.mem_singleton_self _
        exact List.mem_append_left _ hmem
      · exact hu.symm
  | stepContentFail s0 url dur ts o hr ih =>
    intro e he
    rcases List.mem_append.mp he with h | h
    · obtain ⟨e2, h2s, h2u, h2d⟩ := ih e h
      exact ⟨e2, List.mem_append_left _ h2s, h2u, h2d⟩
    · obtain ⟨h2u, h2d, _⟩ := connEntries_entry url dur ts o e h
      refine ⟨e, List.mem_append_right _ h, rfl, ?_⟩
      rw [h2d]
      rfl

/-- Claim C7: over every reachable log-store state, compositeStatus of a url
is absent exactly when the url is missing from the distinct-url listing of
read_monitored_urls. -/
theorem C7_absent_iff_unknown (s : List LogEntry) (hs : Reachable s) (u : String) :
    compositeStatus s u = none ↔ u ∉ read_monitored_urls s := by
  constructor
  · intro hnone hmem
    have hmap : u ∈ s.map LogEntry.url := by
      rw [read_monitored_urls] at hmem
      exact List.mem_dedup.mp hmem
    obtain ⟨e, hes, heu⟩ := List.mem_map.mp hmap
    obtain ⟨e2, h2s, h2u, h2d⟩ := reachable_conn_for_url s hs e hes
    have h2 : e2 ∈ connRows s u := by
      refine (mem_connRows s u e2).mpr ⟨h2s, ?_, h2d⟩
      rw [h2u, heu]
    cases hc : latestRow (connRows s u) with
    | none =>
      rw [latestRow_nil_iff] at hc
      rw [hc] at h2
      exact absurd h2 (List.not_mem_nil e2)
    | some c =>
      simp only [compositeStatus, hc] at hnone
      split at hnone <;> cases hnone
  · intro hnm
    have hempty : connRows s u = [] := by
      cases hr : connRows s u with
      | nil => rfl
      | cons x xs =>
        exfalso
        have hx : x ∈ connRows s u := by
          rw [hr]
          exact List.mem_cons_self x xs
        obtain ⟨hxs, hxu, _⟩ := (mem_connRows s u x).mp hx
        refine hnm ?_
        rw [read_monitored_urls]
        exact List.mem_dedup.mpr (List.mem_map.mpr ⟨x, hxs, hxu⟩)
    simp [compositeStatus, hempty, latestRow]

/-- Claim C7 witness: after one successful probe of url A, the unknown url B
has no composite status and is not listed. -/
theorem C7_absent_iff_unknown_witness :
    compositeStatus (get_and_validate_content "A" 50 1 2 (.resp 200 "hi") []) "B" = none ↔
      "B" ∉ read_monitored_urls (get_and_validate_content "A" 50 1 2 (.resp 200 "hi") []) :=
  C7_absent_iff_unknown _ (Reachable.step [] "A" 50 1 2 (.resp 200 "hi") [] Reachable.nil) "B"

/-- Claim C8: every entry of every reachable log-store state satisfies the
discriminator invariant: CONN_OK and CONN_NOK entries carry a non-null
duration, CONTENT_OK and CONTENT_NOK entries carry a null duration. -/
theorem C8_duration_discriminator (s : List LogEntry) (hs : Reachable s) :
    ∀ e ∈ s,
      ((e.status = .CONN_OK ∨ e.status = .CONN_NOK) → e.duration.isSome = true) ∧
      ((e.status = .CONTENT_OK ∨ e.status = .CONTENT_NOK) → e.duration = none) := by
  induction hs with
  | nil =>
    intro e he
    exact absurd he (List.not_mem_nil e)
  | step s0 url dur t1 t2 o reqs hr ih =>
    intro e he
    rcases List.mem_append.mp he with h | h
    · exact ih e h
    · simp only [get_and_validate_content] at h
      have hsplit : e ∈ connEntries url dur t1 o ∨
          (e.duration = none ∧ (e.status = .CONTENT_OK ∨ e.status = .CONTENT_NOK)) := by
        cases ho : get_response_text o with
        | none =>
          rw [ho] at h
          rw [List.append_nil] at h
          exact Or.inl h
        | some text =>
          rw [ho] at h
          rcases List.mem_append.mp h with h2 | h2
          · exact Or.inl h2
          · obtain ⟨_, hd, hst⟩ := contentLog_entry url t2 text reqs e h2
            exact Or.inr ⟨hd, hst⟩
      rcases hsplit with h2 | ⟨hd, hst⟩
      · obtain ⟨_, hd, hst⟩ := connEntries_entry url dur t1 o e h2
        constructor
        · intro _
          rw [hd]
          rfl
        · intro hc
          rcases hst with h3 | h3 <;> rcases hc with h4 | h4 <;>
            rw [h3] at h4 <;> cases h4
      · constructor
        · intro hc
          rcases hst with h3 | h3 <;> rcases hc with h4 | h4 <;>
            rw [h3] at h4 <;> cases h4
        · intro _
          exact hd
  | stepContentFail s0 url dur ts o hr ih =>
    intro e he
    rcases List.mem_append.mp he with h | h
    · exact ih e h
    · obtain ⟨_, hd, hst⟩ := connEntries_entry url dur ts o e h
      constructor
      · intro _
        rw [hd]
        rfl
      · intro hc
        rcases hst with h3 | h3 <;> rcases hc with h4 | h4 <;>
          rw [h3] at h4 <;> cases h4

/-- Claim C8 witness: the CONN_NOK entry written by a failed probe carries a
non-null duration. -/
theorem C8_duration_discriminator_witness :
    (((⟨1, "u", some 5, .CONN_NOK, "boom"⟩ : LogEntry).status = .CONN_OK ∨
      (⟨1, "u", some 5, .CONN_NOK, "boom"⟩ : LogEntry).status = .CONN_NOK) →
      (⟨1, "u", some 5, .CONN_NOK, "boom"⟩ : LogEntry).duration.isSome = true) ∧
    (((⟨1, "u", some 5, .CONN_NOK, "boom"⟩ : LogEntry).status = .CONTENT_OK ∨
      (⟨1, "u", some 5, .CONN_NOK, "boom"⟩ : LogEntry).status = .CONTENT_NOK) →
      (⟨1, "u", some 5, .CONN_NOK, "boom"⟩ : LogEntry).duration = none) :=
  C8_duration_discriminator (get_and_validate_content "u" 5 1 2 (.exc "boom") [])
    (Reachable.step [] "u" 5 1 2 (.exc "boom") [] Reachable.nil)
    ⟨1, "u", some 5, .CONN_NOK, "boom"⟩ (by decide)

/-- Claim C5, evaluated at the failing input: a storage error raised while
writing one target entry escapes that target probe (probeE returns an error),
makes the whole gather of the cycle raise so the other target entries are lost
from the cycle result, and ends the while loop so a later cycle never runs —
although the same second target alone would have produced its entries. -/
theorem C5_storage_error_crashes_loop :
    probeE ⟨"A", 5, 1, 2, .resp 200 "x", [], ⟨true, false⟩⟩ = .error "StorageError" ∧
    cycleE [⟨"A", 5, 1, 2, .resp 200 "x", [], ⟨true, false⟩⟩,
            ⟨"B", 5, 3, 4, .resp 200 "x", [], ⟨false, false⟩⟩] = .error "StorageError" ∧
    runCycles [[⟨"A", 5, 1, 2, .resp 200 "x", [], ⟨true, false⟩⟩,
                ⟨"B", 5, 3, 4, .resp 200 "x", [], ⟨false, false⟩⟩],
               [⟨"B", 5, 5, 6, .resp 200 "x", [], ⟨false, false⟩⟩]] =
      .error "StorageError" ∧
    cycleE [⟨"B", 5, 3, 4, .resp 200 "x", [], ⟨false, false⟩⟩] =
      .ok [⟨3, "B", some 5, .CONN_OK, ""⟩] :=
  ⟨rfl, rfl, rfl, rfl⟩

/-- Claim C9 (amended): a nonzero command-line interval overrides any
config-file interval; when the command-line interval is absent or zero and the
config-file interval is absent or zero, parsing fails with a configuration
error (a format error when the targets entry is malformed, otherwise the
missing-interval error) instead of producing a Config. -/
theorem C9_interval_resolution (cmd : Option Int) (cfg : RawConfig)
    (ts : List RawTarget) (n : Int) :
    (cmd = some n → n ≠ 0 → cfg.targets = some ts →
      ∃ c, parse_config cmd cfg = .ok c ∧ c.interval = n) ∧
    (truthyInt cmd = false → truthyInt cfg.interval = false → cfg.targets = some ts →
      parse_config cmd cfg = .error .missingInterval) ∧
    (cfg.targets = none → parse_config cmd cfg = .error .formatError) := by
  refine ⟨?_, ?_, ?_⟩
  · intro hc hn ht
    subst hc
    have htr : truthyInt (some n) = true := by
      simp [truthyInt, hn]
    simp only [parse_config, ht, htr, Bool.not_true, Bool.false_and,
      Bool.false_eq_true, if_false]
    exact ⟨_, rfl, rfl⟩
  · intro h1 h2 ht
    simp [parse_config, ht, h1, h2]
  · intro ht
    simp [parse_config, ht]

/-- Claim C9 witness: with no command-line value and a config interval of 0
(falsy, treated as missing) parsing fails with the missing-interval error. -/
theorem C9_interval_resolution_witness :
    truthyInt none = false ∧
    truthyInt (RawConfig.mk (some 0) (some [])).interval = false ∧
    (RawConfig.mk (some 0) (some [])).targets = some [] ∧
    parse_config none ⟨some 0, some []⟩ = .error .missingInterval :=
  ⟨rfl, rfl, rfl, (C9_interval_resolution none ⟨some 0, some []⟩ [] 1).2.1 rfl rfl rfl⟩

/-- Claim C9 counterexample: the command-line interval 0 is given (a present
Optional[int] value) yet does not override the config-file interval 9; Python
truthiness makes parse_config keep 9. -/
theorem C9_cex :
    (some (0 : Int)).isSome = true ∧
    parse_config (some 0) ⟨some 9, some []⟩ = .ok ⟨9, []⟩ ∧ (9 : Int) ≠ 0 :=
  ⟨rfl, rfl, by decide⟩

end SiteMonitor
